import Mathlib

/-!
# epollclient: connection lifecycle of a pool of outbound TCP sockets

A shallow embedding of `epollclient.go`.  Every method of `Connections` is a
function on an explicit `World` (the heap of `Conn` records plus the
chronological trace of the calls made to `unix` and to the external pool).
The outcomes of those external calls come from a read-only `Sys` record of
functions of the call history, so a theorem quantified over `Sys` covers every
sequence of outcomes the kernel and the pool can produce.

Go's `int` is used for descriptors and option values only through comparison
and copying, never arithmetic, so `Int` models it exactly; `uint64` identities
are `Nat`.  A Go `error` is `Option Errno`, `none` being the nil error.
-/

namespace Epollclient

/-- Address of a heap-allocated `Conn` (a non-nil `*Conn`). -/
abbrev Addr := Nat

/-- Payload of a non-nil Go `error`. -/
abbrev Errno := Nat

/-- The dynamic content of a Go `interface{}` value: the nil interface, a
`*Conn` (which may itself be the nil pointer), or a value of any other type. -/
inductive Iface where
  | nil
  | conn (p : Option Addr)
  | other (tag : Nat)
  deriving DecidableEq, Repr

/-- The record `type Conn struct` (lines 19-23). -/
structure Conn where
  Id : Nat
  Fd : Int
  Data : Iface
  deriving DecidableEq, Repr

/-- The configuration fields of `type Connections struct` (lines 25-34).  The
field `pool` points into the external package; what that package answers is
given by `Sys.poolGet`. -/
structure Connections where
  host : String
  port : Int
  keepAlive : Int
  bufferLength : Int
  timeout : Int
  keepCnt : Int
  keepIntvl : Int
  deriving DecidableEq, Repr

def DEFAULT_KEEPALIVE : Int := 1
def DEFAULT_BUFFER_LENGTH : Int := 4096
def DEFAULT_TIMEOUT : Int := 6
def DEFAULT_KEEP_CNT : Int := 2
def DEFAULT_KEEP_INTVL : Int := 8

/-- The names of the `unix` constants the source passes to the kernel, kept
symbolic: their numeric values live in `golang.org/x/sys/unix`. -/
inductive UnixConst where
  | AF_INET
  | SOCK_STREAM
  | SOL_SOCKET
  | SO_KEEPALIVE
  | TCP_KEEPCNT
  | TCP_KEEPINTVL
  | SO_RCVBUF
  | SO_SNDBUF
  | SO_RCVTIMEO
  | SO_SNDTIMEO
  deriving DecidableEq, Repr

/-- One call made to the kernel or to the external pool, with its arguments. -/
inductive Event where
  | socket (domain typ : UnixConst) (proto : Int)
  | connect (fd : Int) (port : Int) (host : String)
  | setsockoptInt (fd : Int) (level opt : UnixConst) (value : Int)
  | close (fd : Int)
  | poolGet
  | poolPutWithId (obj : Addr) (id : Nat)
  deriving DecidableEq, Repr

/-- What the outside world answers, as functions of the calls made so far.
`unix.SetsockoptInt` has no entry: the source discards its result. -/
structure Sys where
  socket : List Event → Int × Option Errno
  connect : List Event → Int → Option Errno
  close : List Event → Int → Option Errno
  poolGet : List Event → Iface × Option Errno

/-- The mutable state: the `Conn` record behind every pointer, and the calls
made so far, oldest first. -/
structure World where
  heap : Addr → Conn
  trace : List Event

/-- Append one call to the trace. -/
def World.log (w : World) (e : Event) : World :=
  { w with trace := w.trace ++ [e] }

/-- The assignment `conn.Fd = fd` through the pointer `conn`. -/
def World.setFd (w : World) (conn : Addr) (fd : Int) : World :=
  { w with heap := fun b => if b = conn then { w.heap conn with Fd := fd } else w.heap b }

/-- The call `unix.Socket(domain, typ, proto)`. -/
def unixSocket (sys : Sys) (w : World) (domain typ : UnixConst) (proto : Int) :
    (Int × Option Errno) × World :=
  (sys.socket w.trace, w.log (Event.socket domain typ proto))

/-- The call `unix.Connect(fd, &addr)`, the address being built from the
configured port and host. -/
def unixConnect (sys : Sys) (w : World) (fd : Int) (port : Int) (host : String) :
    Option Errno × World :=
  (sys.connect w.trace fd, w.log (Event.connect fd port host))

/-- The call `unix.SetsockoptInt(fd, level, opt, value)`, result discarded. -/
def unixSetsockoptInt (w : World) (fd : Int) (level opt : UnixConst) (value : Int) : World :=
  w.log (Event.setsockoptInt fd level opt value)

/-- The call `unix.Close(fd)`. -/
def unixClose (sys : Sys) (w : World) (fd : Int) : Option Errno × World :=
  (sys.close w.trace fd, w.log (Event.close fd))

/-- The call `c.pool.Get()`. -/
def poolGet (sys : Sys) (w : World) : (Iface × Option Errno) × World :=
  (sys.poolGet w.trace, w.log Event.poolGet)

/-- The call `c.pool.PutWithId(conn, id)`. -/
def poolPutWithId (w : World) (conn : Addr) (id : Nat) : World :=
  w.log (Event.poolPutWithId conn id)

/-- The constructor `New` (lines 36-48).  The pool of `capacity` handles it
allocates lives in the external package and is not part of the record. -/
def New (host : String) (port : Int) (_capacity : Int) : Connections :=
  { host := host, port := port, keepAlive := DEFAULT_KEEPALIVE,
    bufferLength := DEFAULT_BUFFER_LENGTH, timeout := DEFAULT_TIMEOUT,
    keepCnt := DEFAULT_KEEP_CNT, keepIntvl := DEFAULT_KEEP_INTVL }

/-- The record `allocWithId` allocates (lines 50-57). -/
def allocWithId (id : Nat) : Conn :=
  { Fd := -1, Id := id, Data := Iface.nil }

def Connections.SetKeepAlive (c : Connections) (n : Int) : Connections :=
  { c with keepAlive := n }

def Connections.SetBufferLength (c : Connections) (n : Int) : Connections :=
  { c with bufferLength := n }

def Connections.SetTimeout (c : Connections) (n : Int) : Connections :=
  { c with timeout := n }

def Connections.SetKeepCnt (c : Connections) (n : Int) : Connections :=
  { c with keepCnt := n }

def Connections.SetKeepIntvl (c : Connections) (n : Int) : Connections :=
  { c with keepIntvl := n }

/-- The method `socket` (lines 129-135). -/
def Connections.socket (_c : Connections) (sys : Sys) (w : World) :
    (Int × Option Errno) × World :=
  match unixSocket sys w UnixConst.AF_INET UnixConst.SOCK_STREAM 0 with
  | ((_, some e), w1) => ((-1, some e), w1)
  | ((fd, none), w1) => ((fd, none), w1)

/-- The method `connect` (lines 137-159). -/
def Connections.connect (c : Connections) (sys : Sys) (w : World) (fd : Int) :
    Option Errno × World :=
  match unixConnect sys w fd c.port c.host with
  | (some e, w1) => (some e, w1)
  | (none, w1) =>
    let w2 := unixSetsockoptInt w1 fd UnixConst.SOL_SOCKET UnixConst.SO_KEEPALIVE c.keepAlive
    let w3 :=
      if c.keepAlive = 1 then
        unixSetsockoptInt
          (unixSetsockoptInt w2 fd UnixConst.SOL_SOCKET UnixConst.TCP_KEEPCNT c.keepCnt)
          fd UnixConst.SOL_SOCKET UnixConst.TCP_KEEPINTVL c.keepIntvl
      else w2
    let w4 := unixSetsockoptInt w3 fd UnixConst.SOL_SOCKET UnixConst.SO_RCVBUF c.bufferLength
    let w5 := unixSetsockoptInt w4 fd UnixConst.SOL_SOCKET UnixConst.SO_SNDBUF c.bufferLength
    let w6 := unixSetsockoptInt w5 fd UnixConst.SOL_SOCKET UnixConst.SO_RCVTIMEO c.timeout
    let w7 := unixSetsockoptInt w6 fd UnixConst.SOL_SOCKET UnixConst.SO_SNDTIMEO c.timeout
    (none, w7)

/-- The method `newSocketConnection` (lines 116-127). -/
def Connections.newSocketConnection (c : Connections) (sys : Sys) (w : World) :
    (Int × Option Errno) × World :=
  match c.socket sys w with
  | ((_, some e), w1) => ((-1, some e), w1)
  | ((fd, none), w1) =>
    match c.connect sys w1 fd with
    | (some e, w2) => ((-1, some e), (unixClose sys w2 fd).2)
    | (none, w2) => ((fd, none), w2)

/-- Lines 80-83 of `Reconnect`: close the descriptor the handle holds, if any,
and mark the handle unconnected. -/
def Connections.dropDescriptor (_c : Connections) (sys : Sys) (w : World) (conn : Addr) : World :=
  if 0 ≤ (w.heap conn).Fd then
    ((unixClose sys w (w.heap conn).Fd).2).setFd conn (-1)
  else w

/-- The method `Reconnect` (lines 79-90), on a non-nil handle. -/
def Connections.Reconnect (c : Connections) (sys : Sys) (w : World) (conn : Addr) :
    Option Errno × World :=
  match c.newSocketConnection sys (c.dropDescriptor sys w conn) with
  | ((_, some e), w2) => (some e, w2)
  | ((fd, none), w2) => (none, w2.setFd conn fd)

/-- The method `Put` (lines 112-114), on a non-nil handle. -/
def Connections.Put (_c : Connections) (w : World) (conn : Addr) : World :=
  poolPutWithId w conn (w.heap conn).Id

/-- How a call ends: it returns a value, or the goroutine panics. -/
inductive Outcome (α : Type) where
  | ret (val : α) (w : World)
  | panic (w : World)

/-- The returned value, when the call returned. -/
def Outcome.value? {α : Type} : Outcome α → Option α
  | Outcome.ret v _ => some v
  | Outcome.panic _ => none

/-- The world the call leaves behind. -/
def Outcome.world {α : Type} : Outcome α → World
  | Outcome.ret _ w => w
  | Outcome.panic w => w

/-- The method `Get` (lines 92-110).  The type assertion `ptr.(*Conn)` succeeds
exactly on `Iface.conn`; reading `conn.Fd` through a nil `*Conn` panics. -/
def Connections.Get (c : Connections) (sys : Sys) (w : World) :
    Outcome (Option Addr × Option Errno) :=
  match poolGet sys w with
  | ((_, some e), w1) => Outcome.ret (none, some e) w1
  | ((Iface.conn (some conn), none), w1) =>
    if (w1.heap conn).Fd < 0 then
      match c.newSocketConnection sys w1 with
      | ((_, some e), w2) => Outcome.ret (none, some e) (c.Put w2 conn)
      | ((fd, none), w2) => Outcome.ret (some conn, none) (w2.setFd conn fd)
    else Outcome.ret (some conn, none) w1
  | ((Iface.conn none, none), w1) => Outcome.panic w1
  | ((_, none), w1) => Outcome.ret (none, none) w1

/-- The method `Close` (lines 169-176), on a non-nil handle. -/
def Connections.Close (_c : Connections) (sys : Sys) (w : World) (conn : Addr) :
    Option Errno × World :=
  if 0 ≤ (w.heap conn).Fd then
    ((unixClose sys w (w.heap conn).Fd).1,
      ((unixClose sys w (w.heap conn).Fd).2).setFd conn (-1))
  else (none, w)

/-- One pool operation a caller can apply. -/
inductive Op where
  | get
  | put (conn : Addr)
  | reconnect (conn : Addr)
  | close (conn : Addr)
  deriving DecidableEq, Repr

/-- Run a finite sequence of pool operations; a panic ends the run. -/
def run (c : Connections) (sys : Sys) : World → List Op → World
  | w, [] => w
  | w, Op.get :: ops =>
    match c.Get sys w with
    | Outcome.ret _ w1 => run c sys w1 ops
    | Outcome.panic w1 => w1
  | w, Op.put conn :: ops => run c sys (c.Put w conn) ops
  | w, Op.reconnect conn :: ops => run c sys (c.Reconnect sys w conn).2 ops
  | w, Op.close conn :: ops => run c sys (c.Close sys w conn).2 ops

/-- The events a call added to the trace it started from. -/
def newEvents (before after : World) : List Event :=
  after.trace.drop before.trace.length

/-- A handle in one of the two states of the data model: it holds a descriptor,
or the sentinel `-1`. -/
def Conn.wellFormed (h : Conn) : Prop := 0 ≤ h.Fd ∨ h.Fd = -1

instance (h : Conn) : Decidable h.wellFormed := by
  unfold Conn.wellFormed; infer_instance

/-- A script for the examples: `unix.Socket` returns `sock`, `unix.Connect`
returns `conn`, `unix.Close` returns `cl`, and the pool returns `got`, at every
call. -/
def constSys (sock : Int × Option Errno) (conn cl : Option Errno)
    (got : Iface × Option Errno) : Sys :=
  { socket := fun _ => sock, connect := fun _ _ => conn, close := fun _ _ => cl,
    poolGet := fun _ => got }

/-- A world for the examples: every handle `a` is `allocWithId a` with its
descriptor replaced by `fd a`, and no call has been made. -/
def freshWorld (fd : Addr → Int) : World :=
  { heap := fun a => { allocWithId a with Fd := fd a }, trace := [] }

/-- The event of the one `unix.Socket` call the source makes (line 130). -/
def socketEvent : Event := Event.socket UnixConst.AF_INET UnixConst.SOCK_STREAM 0

/-- The `setsockopt` calls lines 146-156 issue on `fd`, in program order. -/
def optionEvents (c : Connections) (fd : Int) : List Event :=
  [Event.setsockoptInt fd UnixConst.SOL_SOCKET UnixConst.SO_KEEPALIVE c.keepAlive] ++
  (if c.keepAlive = 1 then
    [Event.setsockoptInt fd UnixConst.SOL_SOCKET UnixConst.TCP_KEEPCNT c.keepCnt,
     Event.setsockoptInt fd UnixConst.SOL_SOCKET UnixConst.TCP_KEEPINTVL c.keepIntvl]
   else []) ++
  [Event.setsockoptInt fd UnixConst.SOL_SOCKET UnixConst.SO_RCVBUF c.bufferLength,
   Event.setsockoptInt fd UnixConst.SOL_SOCKET UnixConst.SO_SNDBUF c.bufferLength,
   Event.setsockoptInt fd UnixConst.SOL_SOCKET UnixConst.SO_RCVTIMEO c.timeout,
   Event.setsockoptInt fd UnixConst.SOL_SOCKET UnixConst.SO_SNDTIMEO c.timeout]

/-- Whether an event is a release into the external pool. -/
def Event.isPut : Event → Bool
  | Event.poolPutWithId _ _ => true
  | _ => false

/-- Whether an event is a call the socket factory can make. -/
def Event.isFactory : Event → Bool
  | Event.poolGet => false
  | Event.poolPutWithId _ _ => false
  | _ => true

/-- A script for the examples in which `unix.Connect` is refused until eight
calls have been made and accepted afterwards; `unix.Socket` always returns 5. -/
def flakySys : Sys :=
  { socket := fun _ => (5, none),
    connect := fun tr _ => if tr.length < 8 then some 111 else none,
    close := fun _ _ => none,
    poolGet := fun _ => (Iface.conn (some 1), none) }

/-- The example configuration. -/
def exampleConfig : Connections := New "10.0.0.1" 80 4

/-- The example world after one `Reconnect` of handle 1 under `flakySys`, the
handle holding descriptor 9 at the start. -/
def flakyWorld1 : World := (exampleConfig.Reconnect flakySys (freshWorld fun _ => 9) 1).2

/-- The example world after the second `Reconnect` of handle 1. -/
def flakyWorld2 : World := (exampleConfig.Reconnect flakySys flakyWorld1 1).2

/-- The example world after the third `Reconnect` of handle 1. -/
def flakyWorld3 : World := (exampleConfig.Reconnect flakySys flakyWorld2 1).2

/-- The example call of `Get` in which the pool reports no error and hands out
an object that is not a `*Conn`. -/
def foreignObjectGet : Outcome (Option Addr × Option Errno) :=
  exampleConfig.Get (constSys (7, none) none none (Iface.other 0, none)) (freshWorld fun _ => -1)

/-- Two worlds agree on the `Id` and the `Data` of every handle. -/
def sameIdData (w w' : World) : Prop :=
  ∀ b, (w'.heap b).Id = (w.heap b).Id ∧ (w'.heap b).Data = (w.heap b).Data

/-- Every handle of the world is in one of the two states of the data model. -/
def allWellFormed (w : World) : Prop := ∀ b, (w.heap b).wellFormed

/-- The kernel's promise about `unix.Socket`: a call that reports no error
returns a non-negative descriptor. -/
def Sys.socketSound (sys : Sys) : Prop := ∀ tr fd, sys.socket tr = (fd, none) → 0 ≤ fd

/-! ## Helper lemmas -/

@[simp] theorem log_heap (w : World) (e : Event) : (w.log e).heap = w.heap := rfl

@[simp] theorem log_trace (w : World) (e : Event) : (w.log e).trace = w.trace ++ [e] := rfl

@[simp] theorem setFd_trace (w : World) (a : Addr) (fd : Int) :
    (w.setFd a fd).trace = w.trace := rfl

@[simp] theorem setFd_Fd (w : World) (a : Addr) (fd : Int) :
    ((w.setFd a fd).heap a).Fd = fd := by
  simp [World.setFd]

@[simp] theorem setFd_Id (w : World) (a b : Addr) (fd : Int) :
    ((w.setFd a fd).heap b).Id = (w.heap b).Id := by
  by_cases h : b = a <;> simp [World.setFd, h]

@[simp] theorem setFd_Data (w : World) (a b : Addr) (fd : Int) :
    ((w.setFd a fd).heap b).Data = (w.heap b).Data := by
  by_cases h : b = a <;> simp [World.setFd, h]

theorem setFd_other (w : World) (a b : Addr) (fd : Int) (h : b ≠ a) :
    (w.setFd a fd).heap b = w.heap b := by
  simp [World.setFd, h]

theorem newEvents_append (w w' : World) (l : List Event) (h : w'.trace = w.trace ++ l) :
    newEvents w w' = l := by
  simp [newEvents, h]

/-- Socket allocation failed: nothing else is called. -/
theorem nsc_socket_fail (c : Connections) (sys : Sys) (w : World) (fd : Int) (e : Errno)
    (h : sys.socket w.trace = (fd, some e)) :
    c.newSocketConnection sys w =
      ((-1, some e), w.log socketEvent) := by
  simp [Connections.newSocketConnection, Connections.socket, unixSocket, h, socketEvent]

/-- Socket allocated, connect failed: the new descriptor is closed. -/
theorem nsc_connect_fail (c : Connections) (sys : Sys) (w : World) (fd : Int) (e : Errno)
    (h : sys.socket w.trace = (fd, none))
    (hc : sys.connect (w.trace ++ [socketEvent]) fd = some e) :
    c.newSocketConnection sys w =
      ((-1, some e),
        ((w.log socketEvent).log (Event.connect fd c.port c.host)).log (Event.close fd)) := by
  simp only [socketEvent] at hc
  simp [Connections.newSocketConnection, Connections.socket, unixSocket, h,
    Connections.connect, unixConnect, unixClose, World.log, hc, socketEvent]

/-- A successful `connect` applies the option profile and nothing else. -/
theorem connect_ok (c : Connections) (sys : Sys) (w : World) (fd : Int)
    (hc : sys.connect w.trace fd = none) :
    c.connect sys w fd =
      (none, { heap := w.heap,
               trace := w.trace ++ Event.connect fd c.port c.host :: optionEvents c fd }) := by
  by_cases hk : c.keepAlive = 1 <;>
    simp [Connections.connect, unixConnect, unixSetsockoptInt, World.log, hc, hk, optionEvents]

/-- A failed `connect` sets no option. -/
theorem connect_fail (c : Connections) (sys : Sys) (w : World) (fd : Int) (e : Errno)
    (hc : sys.connect w.trace fd = some e) :
    c.connect sys w fd = (some e, w.log (Event.connect fd c.port c.host)) := by
  simp [Connections.connect, unixConnect, hc]

/-- Both calls succeeded: the descriptor is returned, tuned and open. -/
theorem nsc_ok (c : Connections) (sys : Sys) (w : World) (fd : Int)
    (h : sys.socket w.trace = (fd, none))
    (hc : sys.connect (w.trace ++ [socketEvent]) fd = none) :
    c.newSocketConnection sys w =
      ((fd, none), { heap := w.heap,
                     trace := w.trace ++
                       socketEvent :: Event.connect fd c.port c.host :: optionEvents c fd }) := by
  have h2 := connect_ok c sys (w.log socketEvent) fd (by simpa [World.log] using hc)
  simp only [World.log, socketEvent] at h2
  simp only [Connections.newSocketConnection, Connections.socket, unixSocket, h, World.log, h2,
    socketEvent]
  simp

/-- The three ways `newSocketConnection` can end. -/
theorem nsc_cases (c : Connections) (sys : Sys) (w : World) :
    (∃ fd e, sys.socket w.trace = (fd, some e) ∧
      c.newSocketConnection sys w = ((-1, some e), w.log socketEvent)) ∨
    (∃ fd e, sys.socket w.trace = (fd, none) ∧
      sys.connect (w.trace ++ [socketEvent]) fd = some e ∧
      c.newSocketConnection sys w =
        ((-1, some e), ((w.log socketEvent).log (Event.connect fd c.port c.host)).log
          (Event.close fd))) ∨
    (∃ fd, sys.socket w.trace = (fd, none) ∧
      sys.connect (w.trace ++ [socketEvent]) fd = none ∧
      c.newSocketConnection sys w =
        ((fd, none), { heap := w.heap,
                       trace := w.trace ++
                         socketEvent :: Event.connect fd c.port c.host :: optionEvents c fd })) := by
  rcases hs : sys.socket w.trace with ⟨fd, _ | e⟩
  · rcases hc : sys.connect (w.trace ++ [socketEvent]) fd with _ | e
    · exact Or.inr (Or.inr ⟨fd, rfl, hc, nsc_ok c sys w fd hs hc⟩)
    · exact Or.inr (Or.inl ⟨fd, e, rfl, hc, nsc_connect_fail c sys w fd e hs hc⟩)
  · exact Or.inl ⟨fd, e, rfl, nsc_socket_fail c sys w fd e hs⟩

theorem optionEvents_no_close (c : Connections) (fd x : Int) :
    Event.close x ∉ optionEvents c fd := by
  by_cases hk : c.keepAlive = 1 <;> simp [optionEvents, hk]

/-- The factory never touches the heap. -/
theorem nsc_heap (c : Connections) (sys : Sys) (w : World) :
    (c.newSocketConnection sys w).2.heap = w.heap := by
  rcases nsc_cases c sys w with ⟨fd, e, _, h⟩ | ⟨fd, e, _, _, h⟩ | ⟨fd, _, _, h⟩ <;>
    simp [h, World.log]

/-- The factory extends the trace by factory calls only. -/
theorem nsc_trace (c : Connections) (sys : Sys) (w : World) :
    ∃ l : List Event, (c.newSocketConnection sys w).2.trace = w.trace ++ l ∧
      ∀ ev ∈ l, ev.isFactory = true := by
  rcases nsc_cases c sys w with ⟨fd, e, _, h⟩ | ⟨fd, e, _, _, h⟩ | ⟨fd, _, _, h⟩
  · exact ⟨[socketEvent], by simp [h, World.log], by simp [socketEvent, Event.isFactory]⟩
  · exact ⟨[socketEvent, Event.connect fd c.port c.host, Event.close fd],
      by simp [h, World.log], by simp [socketEvent, Event.isFactory]⟩
  · refine ⟨socketEvent :: Event.connect fd c.port c.host :: optionEvents c fd,
      by simp [h], ?_⟩
    by_cases hk : c.keepAlive = 1 <;>
      simp [socketEvent, optionEvents, hk, Event.isFactory]

/-- A failing factory reports the sentinel. -/
theorem nsc_err_fd (c : Connections) (sys : Sys) (w : World) (e : Errno)
    (h : (c.newSocketConnection sys w).1.2 = some e) :
    (c.newSocketConnection sys w).1.1 = -1 := by
  rcases nsc_cases c sys w with ⟨fd, e, _, h'⟩ | ⟨fd, e, _, _, h'⟩ | ⟨fd, _, _, h'⟩
  · simp [h']
  · simp [h']
  · simp [h'] at h

/-- A succeeding factory returns the descriptor `unix.Socket` gave. -/
theorem nsc_ok_socket (c : Connections) (sys : Sys) (w : World)
    (h : (c.newSocketConnection sys w).1.2 = none) :
    sys.socket w.trace = ((c.newSocketConnection sys w).1.1, none) := by
  rcases nsc_cases c sys w with ⟨fd, e, _, h'⟩ | ⟨fd, e, _, _, h'⟩ | ⟨fd, hs, _, h'⟩
  · simp [h'] at h
  · simp [h'] at h
  · simp [h', hs]

/-- The pool reported an error. -/
theorem Get_pool_err (c : Connections) (sys : Sys) (w : World) (p : Iface) (e : Errno)
    (hp : sys.poolGet w.trace = (p, some e)) :
    c.Get sys w = Outcome.ret (none, some e) (w.log Event.poolGet) := by
  simp [Connections.Get, poolGet, hp]

/-- The pool returned something that is not a `*Conn`. -/
theorem Get_not_conn (c : Connections) (sys : Sys) (w : World) (p : Iface)
    (hp : sys.poolGet w.trace = (p, none)) (hne : ∀ q, p ≠ Iface.conn q) :
    c.Get sys w = Outcome.ret (none, none) (w.log Event.poolGet) := by
  cases p with
  | nil => simp [Connections.Get, poolGet, hp]
  | other t => simp [Connections.Get, poolGet, hp]
  | conn q => exact absurd rfl (hne q)

/-- The pool returned a nil `*Conn`. -/
theorem Get_nil_ptr (c : Connections) (sys : Sys) (w : World)
    (hp : sys.poolGet w.trace = (Iface.conn none, none)) :
    c.Get sys w = Outcome.panic (w.log Event.poolGet) := by
  simp [Connections.Get, poolGet, hp]

/-- The pool returned a connected handle. -/
theorem Get_warm (c : Connections) (sys : Sys) (w : World) (a : Addr)
    (hp : sys.poolGet w.trace = (Iface.conn (some a), none)) (hfd : 0 ≤ (w.heap a).Fd) :
    c.Get sys w = Outcome.ret (some a, none) (w.log Event.poolGet) := by
  simp [Connections.Get, poolGet, hp, World.log, not_lt.mpr hfd]

/-- The pool returned an unconnected handle and the factory failed. -/
theorem Get_lazy_fail (c : Connections) (sys : Sys) (w : World) (a : Addr) (e : Errno)
    (hp : sys.poolGet w.trace = (Iface.conn (some a), none)) (hfd : (w.heap a).Fd < 0)
    (hf : (c.newSocketConnection sys (w.log Event.poolGet)).1.2 = some e) :
    c.Get sys w = Outcome.ret (none, some e)
      (c.Put (c.newSocketConnection sys (w.log Event.poolGet)).2 a) := by
  rcases hn : c.newSocketConnection sys (w.log Event.poolGet) with ⟨⟨fd, err⟩, w2⟩
  rw [hn] at hf
  simp only at hf
  subst hf
  simp only [Connections.Get, poolGet, hp, hn]
  simp [World.log, hfd]

/-- The pool returned an unconnected handle and the factory succeeded. -/
theorem Get_lazy_ok (c : Connections) (sys : Sys) (w : World) (a : Addr)
    (hp : sys.poolGet w.trace = (Iface.conn (some a), none)) (hfd : (w.heap a).Fd < 0)
    (hf : (c.newSocketConnection sys (w.log Event.poolGet)).1.2 = none) :
    c.Get sys w = Outcome.ret (some a, none)
      ((c.newSocketConnection sys (w.log Event.poolGet)).2.setFd a
        (c.newSocketConnection sys (w.log Event.poolGet)).1.1) := by
  rcases hn : c.newSocketConnection sys (w.log Event.poolGet) with ⟨⟨fd, err⟩, w2⟩
  rw [hn] at hf
  simp only at hf
  subst hf
  simp only [Connections.Get, poolGet, hp, hn]
  simp [World.log, hfd]

theorem isPut_of_isFactory (ev : Event) (h : ev.isFactory = true) : ev.isPut = false := by
  cases ev <;> simp_all [Event.isFactory, Event.isPut]

theorem countP_isPut_factory (l : List Event) (h : ∀ ev ∈ l, ev.isFactory = true) :
    l.countP Event.isPut = 0 := by
  rw [List.countP_eq_zero]
  intro ev hev
  simp [isPut_of_isFactory ev (h ev hev)]

/-- The closing half of `Reconnect` on a connected handle. -/
theorem dropDescriptor_connected (c : Connections) (sys : Sys) (w : World) (a : Addr)
    (h : 0 ≤ (w.heap a).Fd) :
    c.dropDescriptor sys w a = (w.log (Event.close (w.heap a).Fd)).setFd a (-1) := by
  simp [Connections.dropDescriptor, unixClose, h]

/-- The closing half of `Reconnect` on an unconnected handle does nothing. -/
theorem dropDescriptor_unconnected (c : Connections) (sys : Sys) (w : World) (a : Addr)
    (h : (w.heap a).Fd < 0) :
    c.dropDescriptor sys w a = w := by
  simp [Connections.dropDescriptor, not_le.mpr h]

/-- After the closing half the handle is unconnected. -/
theorem dropDescriptor_Fd_neg (c : Connections) (sys : Sys) (w : World) (a : Addr) :
    ((c.dropDescriptor sys w a).heap a).Fd < 0 := by
  by_cases h : 0 ≤ (w.heap a).Fd
  · rw [dropDescriptor_connected c sys w a h]; simp
  · rw [dropDescriptor_unconnected c sys w a (not_le.mp h)]; exact not_le.mp h

/-- After the closing half a well-formed handle holds the sentinel. -/
theorem dropDescriptor_Fd_sentinel (c : Connections) (sys : Sys) (w : World) (a : Addr)
    (hwf : (w.heap a).wellFormed) :
    ((c.dropDescriptor sys w a).heap a).Fd = -1 := by
  by_cases h : 0 ≤ (w.heap a).Fd
  · rw [dropDescriptor_connected c sys w a h]; simp
  · rw [dropDescriptor_unconnected c sys w a (not_le.mp h)]
    rcases hwf with h0 | h1
    · exact absurd h0 h
    · exact h1

/-- The factory failed inside `Reconnect`. -/
theorem Reconnect_fail (c : Connections) (sys : Sys) (w : World) (a : Addr) (e : Errno)
    (hf : (c.newSocketConnection sys (c.dropDescriptor sys w a)).1.2 = some e) :
    c.Reconnect sys w a = (some e, (c.newSocketConnection sys (c.dropDescriptor sys w a)).2) := by
  rcases hn : c.newSocketConnection sys (c.dropDescriptor sys w a) with ⟨⟨fd, err⟩, w2⟩
  rw [hn] at hf
  simp only at hf
  subst hf
  simp only [Connections.Reconnect, hn]

/-- The factory succeeded inside `Reconnect`. -/
theorem Reconnect_ok (c : Connections) (sys : Sys) (w : World) (a : Addr)
    (hf : (c.newSocketConnection sys (c.dropDescriptor sys w a)).1.2 = none) :
    c.Reconnect sys w a =
      (none, (c.newSocketConnection sys (c.dropDescriptor sys w a)).2.setFd a
        (c.newSocketConnection sys (c.dropDescriptor sys w a)).1.1) := by
  rcases hn : c.newSocketConnection sys (c.dropDescriptor sys w a) with ⟨⟨fd, err⟩, w2⟩
  rw [hn] at hf
  simp only at hf
  subst hf
  simp only [Connections.Reconnect, hn]

/-- A failing `Reconnect` leaves the heap as the closing half left it. -/
theorem Reconnect_fail_heap (c : Connections) (sys : Sys) (w : World) (a : Addr) (e : Errno)
    (hf : (c.newSocketConnection sys (c.dropDescriptor sys w a)).1.2 = some e) :
    (c.Reconnect sys w a).2.heap = (c.dropDescriptor sys w a).heap := by
  rw [Reconnect_fail c sys w a e hf]
  exact nsc_heap c sys _

/-- `Close` on a connected handle. -/
theorem Close_of_connected (c : Connections) (sys : Sys) (w : World) (a : Addr)
    (h : 0 ≤ (w.heap a).Fd) :
    c.Close sys w a =
      (sys.close w.trace (w.heap a).Fd, (w.log (Event.close (w.heap a).Fd)).setFd a (-1)) := by
  simp [Connections.Close, unixClose, h]

/-- `Close` on an unconnected handle. -/
theorem Close_of_unconnected (c : Connections) (sys : Sys) (w : World) (a : Addr)
    (h : (w.heap a).Fd < 0) :
    c.Close sys w a = (none, w) := by
  simp [Connections.Close, not_le.mpr h]

/-- After `Close` the handle is unconnected. -/
theorem Close_Fd_neg (c : Connections) (sys : Sys) (w : World) (a : Addr) :
    ((c.Close sys w a).2.heap a).Fd < 0 := by
  by_cases h : 0 ≤ (w.heap a).Fd
  · rw [Close_of_connected c sys w a h]; simp
  · rw [Close_of_unconnected c sys w a (not_le.mp h)]; exact not_le.mp h

theorem sameIdData_refl (w : World) : sameIdData w w := fun _ => ⟨rfl, rfl⟩

theorem sameIdData_trans {w1 w2 w3 : World} (h12 : sameIdData w1 w2) (h23 : sameIdData w2 w3) :
    sameIdData w1 w3 :=
  fun b => ⟨(h23 b).1.trans (h12 b).1, (h23 b).2.trans (h12 b).2⟩

theorem sameIdData_of_heap_eq {w w' : World} (h : w'.heap = w.heap) : sameIdData w w' := by
  intro b
  rw [h]
  exact ⟨rfl, rfl⟩

theorem sameIdData_setFd (w : World) (a : Addr) (fd : Int) : sameIdData w (w.setFd a fd) := by
  intro b
  simp

theorem sameIdData_nsc (c : Connections) (sys : Sys) (w : World) :
    sameIdData w (c.newSocketConnection sys w).2 :=
  sameIdData_of_heap_eq (nsc_heap c sys w)

theorem sameIdData_Put (c : Connections) (w : World) (a : Addr) : sameIdData w (c.Put w a) :=
  sameIdData_of_heap_eq (by simp [Connections.Put, poolPutWithId])

theorem sameIdData_dropDescriptor (c : Connections) (sys : Sys) (w : World) (a : Addr) :
    sameIdData w (c.dropDescriptor sys w a) := by
  by_cases h : 0 ≤ (w.heap a).Fd
  · rw [dropDescriptor_connected c sys w a h]
    exact sameIdData_trans (sameIdData_of_heap_eq (log_heap w _)) (sameIdData_setFd _ a (-1))
  · rw [dropDescriptor_unconnected c sys w a (not_le.mp h)]
    exact sameIdData_refl w

theorem sameIdData_Close (c : Connections) (sys : Sys) (w : World) (a : Addr) :
    sameIdData w (c.Close sys w a).2 := by
  by_cases h : 0 ≤ (w.heap a).Fd
  · rw [Close_of_connected c sys w a h]
    exact sameIdData_trans (sameIdData_of_heap_eq (log_heap w _)) (sameIdData_setFd _ a (-1))
  · rw [Close_of_unconnected c sys w a (not_le.mp h)]
    exact sameIdData_refl w

theorem sameIdData_Reconnect (c : Connections) (sys : Sys) (w : World) (a : Addr) :
    sameIdData w (c.Reconnect sys w a).2 := by
  have hd := sameIdData_dropDescriptor c sys w a
  have hn := sameIdData_nsc c sys (c.dropDescriptor sys w a)
  rcases hf : (c.newSocketConnection sys (c.dropDescriptor sys w a)).1.2 with _ | e
  · rw [Reconnect_ok c sys w a hf]
    exact sameIdData_trans (sameIdData_trans hd hn) (sameIdData_setFd _ a _)
  · rw [Reconnect_fail c sys w a e hf]
    exact sameIdData_trans hd hn

theorem sameIdData_Get (c : Connections) (sys : Sys) (w : World) :
    sameIdData w (c.Get sys w).world := by
  have hlog : sameIdData w (w.log Event.poolGet) := sameIdData_of_heap_eq (log_heap w _)
  rcases hp : sys.poolGet w.trace with ⟨p, _ | e⟩
  · cases p with
    | nil => rw [Get_not_conn c sys w _ hp (by simp)]; exact hlog
    | other t => rw [Get_not_conn c sys w _ hp (by simp)]; exact hlog
    | conn q =>
      cases q with
      | none => rw [Get_nil_ptr c sys w hp]; exact hlog
      | some b =>
        by_cases hfd : 0 ≤ (w.heap b).Fd
        · rw [Get_warm c sys w b hp hfd]; exact hlog
        · have hneg : (w.heap b).Fd < 0 := not_le.mp hfd
          have hn := sameIdData_nsc c sys (w.log Event.poolGet)
          rcases hf : (c.newSocketConnection sys (w.log Event.poolGet)).1.2 with _ | e
          · rw [Get_lazy_ok c sys w b hp hneg hf]
            exact sameIdData_trans (sameIdData_trans hlog hn) (sameIdData_setFd _ b _)
          · rw [Get_lazy_fail c sys w b e hp hneg hf]
            exact sameIdData_trans (sameIdData_trans hlog hn) (sameIdData_Put c _ b)
  · rw [Get_pool_err c sys w p e hp]; exact hlog

theorem sameIdData_run (c : Connections) (sys : Sys) (ops : List Op) :
    ∀ w : World, sameIdData w (run c sys w ops) := by
  induction ops with
  | nil => intro w; exact sameIdData_refl w
  | cons op ops ih =>
    intro w
    cases op with
    | get =>
      have hg := sameIdData_Get c sys w
      cases hgo : c.Get sys w with
      | ret v w1 =>
        rw [hgo] at hg
        simp only [run, hgo]
        exact sameIdData_trans hg (ih w1)
      | panic w1 =>
        rw [hgo] at hg
        simp only [run, hgo]
        exact hg
    | put a => exact sameIdData_trans (sameIdData_Put c w a) (ih _)
    | reconnect a => exact sameIdData_trans (sameIdData_Reconnect c sys w a) (ih _)
    | close a => exact sameIdData_trans (sameIdData_Close c sys w a) (ih _)

theorem allWellFormed_of_heap_eq {w w' : World} (h : w'.heap = w.heap)
    (hw : allWellFormed w) : allWellFormed w' := by
  intro b
  rw [h]
  exact hw b

theorem allWellFormed_setFd {w : World} (a : Addr) (fd : Int) (hw : allWellFormed w)
    (hfd : 0 ≤ fd ∨ fd = -1) : allWellFormed (w.setFd a fd) := by
  intro b
  by_cases h : b = a
  · subst h
    simpa [Conn.wellFormed] using hfd
  · rw [setFd_other w a b fd h]
    exact hw b

theorem allWellFormed_dropDescriptor (c : Connections) (sys : Sys) (w : World) (a : Addr)
    (hw : allWellFormed w) : allWellFormed (c.dropDescriptor sys w a) := by
  by_cases h : 0 ≤ (w.heap a).Fd
  · rw [dropDescriptor_connected c sys w a h]
    exact allWellFormed_setFd a (-1) (allWellFormed_of_heap_eq (log_heap w _) hw) (Or.inr rfl)
  · rw [dropDescriptor_unconnected c sys w a (not_le.mp h)]
    exact hw

theorem allWellFormed_Close (c : Connections) (sys : Sys) (w : World) (a : Addr)
    (hw : allWellFormed w) : allWellFormed (c.Close sys w a).2 := by
  by_cases h : 0 ≤ (w.heap a).Fd
  · rw [Close_of_connected c sys w a h]
    exact allWellFormed_setFd a (-1) (allWellFormed_of_heap_eq (log_heap w _) hw) (Or.inr rfl)
  · rw [Close_of_unconnected c sys w a (not_le.mp h)]
    exact hw

theorem allWellFormed_Reconnect (c : Connections) (sys : Sys) (w : World) (a : Addr)
    (hs : sys.socketSound) (hw : allWellFormed w) : allWellFormed (c.Reconnect sys w a).2 := by
  have hd := allWellFormed_dropDescriptor c sys w a hw
  have hn := allWellFormed_of_heap_eq (nsc_heap c sys (c.dropDescriptor sys w a)) hd
  rcases hf : (c.newSocketConnection sys (c.dropDescriptor sys w a)).1.2 with _ | e
  · rw [Reconnect_ok c sys w a hf]
    exact allWellFormed_setFd a _ hn (Or.inl (hs _ _ (nsc_ok_socket c sys _ hf)))
  · rw [Reconnect_fail c sys w a e hf]
    exact hn

theorem allWellFormed_Get (c : Connections) (sys : Sys) (w : World)
    (hs : sys.socketSound) (hw : allWellFormed w) : allWellFormed (c.Get sys w).world := by
  have hlog : allWellFormed (w.log Event.poolGet) := allWellFormed_of_heap_eq (log_heap w _) hw
  rcases hp : sys.poolGet w.trace with ⟨p, _ | e⟩
  · cases p with
    | nil => rw [Get_not_conn c sys w _ hp (by simp)]; exact hlog
    | other t => rw [Get_not_conn c sys w _ hp (by simp)]; exact hlog
    | conn q =>
      cases q with
      | none => rw [Get_nil_ptr c sys w hp]; exact hlog
      | some b =>
        by_cases hfd : 0 ≤ (w.heap b).Fd
        · rw [Get_warm c sys w b hp hfd]; exact hlog
        · have hneg : (w.heap b).Fd < 0 := not_le.mp hfd
          have hn := allWellFormed_of_heap_eq (nsc_heap c sys (w.log Event.poolGet)) hlog
          rcases hf : (c.newSocketConnection sys (w.log Event.poolGet)).1.2 with _ | e
          · rw [Get_lazy_ok c sys w b hp hneg hf]
            exact allWellFormed_setFd b _ hn (Or.inl (hs _ _ (nsc_ok_socket c sys _ hf)))
          · rw [Get_lazy_fail c sys w b e hp hneg hf]
            exact allWellFormed_of_heap_eq
              (by simp [Connections.Put, poolPutWithId, Outcome.world]) hn
  · rw [Get_pool_err c sys w p e hp]; exact hlog

/-- Handles created by `allocWithId` hold the sentinel, and every pool operation
keeps each handle at a descriptor or the sentinel: the two states of the data
model are all a handle managed by the pool is ever in. -/
theorem allWellFormed_run (c : Connections) (sys : Sys) (hs : sys.socketSound)
    (ops : List Op) : ∀ w : World, allWellFormed w → allWellFormed (run c sys w ops) := by
  induction ops with
  | nil => intro w hw; exact hw
  | cons op ops ih =>
    intro w hw
    cases op with
    | get =>
      have hg := allWellFormed_Get c sys w hs hw
      cases hgo : c.Get sys w with
      | ret v w1 =>
        rw [hgo] at hg
        simp only [run, hgo]
        exact ih w1 hg
      | panic w1 =>
        rw [hgo] at hg
        simp only [run, hgo]
        exact hg
    | put a =>
      exact ih _ (allWellFormed_of_heap_eq (by simp [Connections.Put, poolPutWithId]) hw)
    | reconnect a => exact ih _ (allWellFormed_Reconnect c sys w a hs hw)
    | close a => exact ih _ (allWellFormed_Close c sys w a hw)

theorem allocWithId_wellFormed (id : Nat) : (allocWithId id).wellFormed := Or.inr rfl

/-! ## The socket factory -/

/-- C9: `newSocketConnection` never leaks a descriptor.  If socket allocation
fails it returns `(-1, that error)` having called only `unix.Socket` (no close);
if allocation yields `fd` and connect fails it closes exactly `fd`, once, and
returns `(-1, the connect error)`; if both succeed it returns `(fd, nil)` and no
close is among its calls; and it returns a nil error only in that last case. -/
theorem newSocketConnection_no_leak (c : Connections) (sys : Sys) (w : World) :
    (∀ fd e, sys.socket w.trace = (fd, some e) →
      (c.newSocketConnection sys w).1 = (-1, some e) ∧
      (c.newSocketConnection sys w).2.trace = w.trace ++ [socketEvent]) ∧
    (∀ fd e, sys.socket w.trace = (fd, none) →
      sys.connect (w.trace ++ [socketEvent]) fd = some e →
      (c.newSocketConnection sys w).1 = (-1, some e) ∧
      (c.newSocketConnection sys w).2.trace =
        w.trace ++ [socketEvent, Event.connect fd c.port c.host, Event.close fd]) ∧
    (∀ fd, sys.socket w.trace = (fd, none) →
      sys.connect (w.trace ++ [socketEvent]) fd = none →
      (c.newSocketConnection sys w).1 = (fd, none) ∧
      (c.newSocketConnection sys w).2.trace =
        w.trace ++ socketEvent :: Event.connect fd c.port c.host :: optionEvents c fd ∧
      ∀ x, Event.close x ∉ newEvents w (c.newSocketConnection sys w).2) ∧
    ((c.newSocketConnection sys w).1.2 = none →
      ∃ fd, sys.socket w.trace = (fd, none) ∧
        sys.connect (w.trace ++ [socketEvent]) fd = none ∧
        (c.newSocketConnection sys w).1.1 = fd) := by
  refine ⟨?_, ?_, ?_, ?_⟩
  · intro fd e hs
    simp [nsc_socket_fail c sys w fd e hs, World.log]
  · intro fd e hs hc
    simp [nsc_connect_fail c sys w fd e hs hc, World.log]
  · intro fd hs hc
    refine ⟨by simp [nsc_ok c sys w fd hs hc], by simp [nsc_ok c sys w fd hs hc], ?_⟩
    intro x
    rw [newEvents_append w _ (socketEvent :: Event.connect fd c.port c.host :: optionEvents c fd)
      (by simp [nsc_ok c sys w fd hs hc])]
    simp [socketEvent, optionEvents_no_close]
  · intro hnone
    rcases nsc_cases c sys w with ⟨fd, e, _, h⟩ | ⟨fd, e, _, _, h⟩ | ⟨fd, hs, hc, h⟩
    · simp [h] at hnone
    · simp [h] at hnone
    · exact ⟨fd, hs, hc, by simp [h]⟩

/-- Witness for C9: the three branches on concrete scripts. -/
theorem newSocketConnection_no_leak_witness :
    ((New "10.0.0.1" 80 4).newSocketConnection
        (constSys (-1, some 24) none none (Iface.nil, none)) (freshWorld fun _ => -1)).2.trace
      = [socketEvent] ∧
    ((New "10.0.0.1" 80 4).newSocketConnection
        (constSys (5, none) (some 111) none (Iface.nil, none)) (freshWorld fun _ => -1)).2.trace
      = [socketEvent, Event.connect 5 80 "10.0.0.1", Event.close 5] ∧
    ((New "10.0.0.1" 80 4).newSocketConnection
        (constSys (5, none) none none (Iface.nil, none)) (freshWorld fun _ => -1)).1
      = (5, none) ∧
    (∃ fd : Int, ((5 : Int), (none : Option Errno)) = (fd, none)) :=
  ⟨((newSocketConnection_no_leak (New "10.0.0.1" 80 4)
      (constSys (-1, some 24) none none (Iface.nil, none)) (freshWorld fun _ => -1)).1
      (-1) 24 rfl).2,
   ((newSocketConnection_no_leak (New "10.0.0.1" 80 4)
      (constSys (5, none) (some 111) none (Iface.nil, none)) (freshWorld fun _ => -1)).2.1
      5 111 rfl rfl).2,
   ((newSocketConnection_no_leak (New "10.0.0.1" 80 4)
      (constSys (5, none) none none (Iface.nil, none)) (freshWorld fun _ => -1)).2.2.1
      5 rfl rfl).1,
   ((newSocketConnection_no_leak (New "10.0.0.1" 80 4)
      (constSys (5, none) none none (Iface.nil, none)) (freshWorld fun _ => -1)).2.2.2
      rfl).imp fun _ h => h.1⟩

/-! ## Acquire and release -/

/-- C1: if `Get` returns a handle with a nil error, the handle's `Fd` is not the
unconnected sentinel (`Fd >= 0`), provided `unix.Socket` returns a non-negative
descriptor whenever it reports no error.  Both the already-connected and the
lazily-connected handle are covered. -/
theorem Get_success_connected (c : Connections) (sys : Sys) (w : World) (a : Addr)
    (hsock : ∀ tr fd, sys.socket tr = (fd, none) → 0 ≤ fd)
    (hget : (c.Get sys w).value? = some (some a, none)) :
    0 ≤ ((c.Get sys w).world.heap a).Fd := by
  rcases hp : sys.poolGet w.trace with ⟨p, _ | e⟩
  · cases p with
    | nil =>
      rw [Get_not_conn c sys w _ hp (by simp)] at hget
      simp [Outcome.value?] at hget
    | other t =>
      rw [Get_not_conn c sys w _ hp (by simp)] at hget
      simp [Outcome.value?] at hget
    | conn q =>
      cases q with
      | none =>
        rw [Get_nil_ptr c sys w hp] at hget
        simp [Outcome.value?] at hget
      | some b =>
        by_cases hfd : 0 ≤ (w.heap b).Fd
        · rw [Get_warm c sys w b hp hfd] at hget ⊢
          simp [Outcome.value?] at hget
          subst hget
          simpa [Outcome.world, World.log] using hfd
        · have hneg : (w.heap b).Fd < 0 := not_le.mp hfd
          rcases hf : (c.newSocketConnection sys (w.log Event.poolGet)).1.2 with _ | e
          · rw [Get_lazy_ok c sys w b hp hneg hf] at hget ⊢
            simp [Outcome.value?] at hget
            subst hget
            have hs := nsc_ok_socket c sys (w.log Event.poolGet) hf
            simpa [Outcome.world, World.setFd] using hsock _ _ hs
          · rw [Get_lazy_fail c sys w b e hp hneg hf] at hget
            simp [Outcome.value?] at hget
  · rw [Get_pool_err c sys w p e hp] at hget
    simp [Outcome.value?] at hget

/-- Witness for C1: a lazily connected handle and an already connected one. -/
theorem Get_success_connected_witness :
    0 ≤ (((New "10.0.0.1" 80 4).Get (constSys (7, none) none none (Iface.conn (some 0), none))
        (freshWorld fun _ => -1)).world.heap 0).Fd ∧
    0 ≤ (((New "10.0.0.1" 80 4).Get (constSys (7, none) none none (Iface.conn (some 0), none))
        (freshWorld fun _ => 4)).world.heap 0).Fd :=
  ⟨Get_success_connected (New "10.0.0.1" 80 4)
      (constSys (7, none) none none (Iface.conn (some 0), none)) (freshWorld fun _ => -1) 0
      (fun _ fd h => by simp [constSys] at h; omega) rfl,
   Get_success_connected (New "10.0.0.1" 80 4)
      (constSys (7, none) none none (Iface.conn (some 0), none)) (freshWorld fun _ => 4) 0
      (fun _ fd h => by simp [constSys] at h; omega) rfl⟩

/-- C2: when the pool hands out an unconnected handle (`Fd < 0`) and the socket
factory fails with `e`, `Get` returns the nil handle with exactly `e`; its last
call is the release of that handle under the handle's own `Id`, the only release
it makes; and the heap, hence the handle's `Fd`, is unchanged. -/
theorem Get_factory_failure_releases (c : Connections) (sys : Sys) (w : World) (a : Addr)
    (e : Errno)
    (hp : sys.poolGet w.trace = (Iface.conn (some a), none))
    (hfd : (w.heap a).Fd < 0)
    (hf : (c.newSocketConnection sys (w.log Event.poolGet)).1.2 = some e) :
    (c.Get sys w).value? = some (none, some e) ∧
    (c.Get sys w).world.trace =
      (c.newSocketConnection sys (w.log Event.poolGet)).2.trace ++
        [Event.poolPutWithId a (w.heap a).Id] ∧
    (newEvents w (c.Get sys w).world).countP Event.isPut = 1 ∧
    (c.Get sys w).world.heap = w.heap ∧
    ((c.Get sys w).world.heap a).Fd < 0 := by
  have hh := nsc_heap c sys (w.log Event.poolGet)
  obtain ⟨l, hl, hfac⟩ := nsc_trace c sys (w.log Event.poolGet)
  rw [Get_lazy_fail c sys w a e hp hfd hf]
  have hheap : (c.Put (c.newSocketConnection sys (w.log Event.poolGet)).2 a).heap = w.heap := by
    simp [Connections.Put, poolPutWithId, hh]
  refine ⟨rfl, ?_, ?_, hheap, ?_⟩
  · simp [Outcome.world, Connections.Put, poolPutWithId, hh]
  · rw [newEvents_append w _ (Event.poolGet :: l ++ [Event.poolPutWithId a (w.heap a).Id])]
    · simp [List.countP_cons, List.countP_append, countP_isPut_factory l hfac, Event.isPut]
    · simp [Outcome.world, Connections.Put, poolPutWithId, hh, hl]
  · simp only [Outcome.world, hheap]
    exact hfd

/-- Witness for C2: socket allocation fails while handle 3 is acquired. -/
theorem Get_factory_failure_releases_witness :
    ((New "10.0.0.1" 80 4).Get (constSys (-1, some 24) none none (Iface.conn (some 3), none))
        (freshWorld fun _ => -1)).value? = some (none, some 24) ∧
    ((New "10.0.0.1" 80 4).Get (constSys (-1, some 24) none none (Iface.conn (some 3), none))
        (freshWorld fun _ => -1)).world.trace =
      [Event.poolGet, socketEvent, Event.poolPutWithId 3 3] :=
  ⟨(Get_factory_failure_releases (New "10.0.0.1" 80 4)
      (constSys (-1, some 24) none none (Iface.conn (some 3), none)) (freshWorld fun _ => -1)
      3 24 rfl (by decide) rfl).1,
   (Get_factory_failure_releases (New "10.0.0.1" 80 4)
      (constSys (-1, some 24) none none (Iface.conn (some 3), none)) (freshWorld fun _ => -1)
      3 24 rfl (by decide) rfl).2.1⟩

/-- The nil handle comes with the nil error exactly when the pool reports no
error and hands out an object that is not a `*Conn`: the type assertion of
line 95 fails and line 109 returns the nil `err`. -/
theorem Get_nil_nil_iff (c : Connections) (sys : Sys) (w : World) :
    (c.Get sys w).value? = some (none, none) ↔
      ∃ p, sys.poolGet w.trace = (p, none) ∧ ∀ q, p ≠ Iface.conn q := by
  constructor
  · intro hget
    rcases hp : sys.poolGet w.trace with ⟨p, _ | e⟩
    · cases p with
      | nil => exact ⟨Iface.nil, rfl, by simp⟩
      | other t => exact ⟨Iface.other t, rfl, by simp⟩
      | conn q =>
        cases q with
        | none =>
          rw [Get_nil_ptr c sys w hp] at hget
          simp [Outcome.value?] at hget
        | some b =>
          by_cases hfd : 0 ≤ (w.heap b).Fd
          · rw [Get_warm c sys w b hp hfd] at hget
            simp [Outcome.value?] at hget
          · have hneg : (w.heap b).Fd < 0 := not_le.mp hfd
            rcases hf : (c.newSocketConnection sys (w.log Event.poolGet)).1.2 with _ | e
            · rw [Get_lazy_ok c sys w b hp hneg hf] at hget
              simp [Outcome.value?] at hget
            · rw [Get_lazy_fail c sys w b e hp hneg hf] at hget
              simp [Outcome.value?] at hget
    · rw [Get_pool_err c sys w p e hp] at hget
      simp [Outcome.value?] at hget
  · rintro ⟨p, hp, hne⟩
    rw [Get_not_conn c sys w p hp hne]
    rfl

/-- Counterexample for C3 as stated: the pool reports no error and hands out an
object that is not a `*Conn`; `Get` returns the nil handle with the nil error,
which is neither of the two shapes. -/
theorem Get_two_shapes_counterexample :
    foreignObjectGet.value? = some (none, none) ∧
    ¬ ((∃ a, foreignObjectGet.value? = some (some a, none)) ∨
       (∃ e, foreignObjectGet.value? = some (none, some e))) := by
  have h : foreignObjectGet.value? = some (none, none) := rfl
  refine ⟨h, ?_⟩
  rw [h]
  simp

/-- C3, amended: when the pool's `Get` reports an error, or hands out a non-nil
`*Conn` (the only objects a pool filled by `allocWithId` and refilled by `Put`
holds), then for every outcome of the socket factory `Get` returns, and returns
one of two shapes: a non-nil handle with the nil error, or the nil handle with
a non-nil error.  It does not return the nil handle with the nil error. -/
theorem Get_two_shapes (c : Connections) (sys : Sys) (w : World)
    (hpool : (∃ e, (sys.poolGet w.trace).2 = some e) ∨
      (∃ a, (sys.poolGet w.trace).1 = Iface.conn (some a))) :
    ((∃ a, (c.Get sys w).value? = some (some a, none)) ∨
      (∃ e, (c.Get sys w).value? = some (none, some e))) ∧
    (c.Get sys w).value? ≠ some (none, none) := by
  have shapes : (∃ a, (c.Get sys w).value? = some (some a, none)) ∨
      (∃ e, (c.Get sys w).value? = some (none, some e)) := by
    rcases hp : sys.poolGet w.trace with ⟨p, _ | e⟩
    · rw [hp] at hpool
      rcases hpool with ⟨e, he⟩ | ⟨b, hb⟩
      · simp at he
      · simp only at hb
        subst hb
        by_cases hfd : 0 ≤ (w.heap b).Fd
        · exact Or.inl ⟨b, by rw [Get_warm c sys w b hp hfd]; rfl⟩
        · have hneg : (w.heap b).Fd < 0 := not_le.mp hfd
          rcases hf : (c.newSocketConnection sys (w.log Event.poolGet)).1.2 with _ | e
          · exact Or.inl ⟨b, by rw [Get_lazy_ok c sys w b hp hneg hf]; rfl⟩
          · exact Or.inr ⟨e, by rw [Get_lazy_fail c sys w b e hp hneg hf]; rfl⟩
    · exact Or.inr ⟨e, by rw [Get_pool_err c sys w p e hp]; rfl⟩
  refine ⟨shapes, ?_⟩
  intro hnil
  rw [hnil] at shapes
  rcases shapes with ⟨a, ha⟩ | ⟨e, he⟩
  · simp at ha
  · simp at he

/-- Witness for C3, amended: the pool reports an error; the pool hands out
handle 0 unconnected and the factory succeeds; the same and the factory
fails. -/
theorem Get_two_shapes_witness :
    ((∃ a, (exampleConfig.Get (constSys (7, none) none none (Iface.nil, some 11))
          (freshWorld fun _ => -1)).value? = some (some a, none)) ∨
      (∃ e, (exampleConfig.Get (constSys (7, none) none none (Iface.nil, some 11))
          (freshWorld fun _ => -1)).value? = some (none, some e))) ∧
    (exampleConfig.Get (constSys (7, none) none none (Iface.conn (some 0), none))
        (freshWorld fun _ => -1)).value? ≠ some (none, none) ∧
    (exampleConfig.Get (constSys (-1, some 24) none none (Iface.conn (some 0), none))
        (freshWorld fun _ => -1)).value? ≠ some (none, none) :=
  ⟨(Get_two_shapes exampleConfig (constSys (7, none) none none (Iface.nil, some 11))
      (freshWorld fun _ => -1) (Or.inl ⟨11, rfl⟩)).1,
   (Get_two_shapes exampleConfig (constSys (7, none) none none (Iface.conn (some 0), none))
      (freshWorld fun _ => -1) (Or.inr ⟨0, rfl⟩)).2,
   (Get_two_shapes exampleConfig (constSys (-1, some 24) none none (Iface.conn (some 0), none))
      (freshWorld fun _ => -1) (Or.inr ⟨0, rfl⟩)).2⟩

/-- C7: `Put` hands the handle to the pool under the handle's own `Id` and does
nothing else (no close, heap untouched); and whenever the pool hands `Get` a
handle whose `Fd` is connected, `Get` returns that handle, its only call being
the pool's `Get` (no socket, connect, setsockopt or close) and the heap, hence
the `Fd`, unchanged.  In particular this holds for the `Get` that follows the
`Put` of a connected handle. -/
theorem Put_keeps_socket_warm (c : Connections) (sys : Sys) (w w2 : World) (a b : Addr) :
    ((c.Put w a).trace = w.trace ++ [Event.poolPutWithId a (w.heap a).Id] ∧
      (c.Put w a).heap = w.heap) ∧
    (sys.poolGet w2.trace = (Iface.conn (some b), none) → 0 ≤ (w2.heap b).Fd →
      (c.Get sys w2).value? = some (some b, none) ∧
      (c.Get sys w2).world.trace = w2.trace ++ [Event.poolGet] ∧
      (c.Get sys w2).world.heap = w2.heap ∧
      ((c.Get sys w2).world.heap b).Fd = (w2.heap b).Fd) ∧
    (sys.poolGet (c.Put w a).trace = (Iface.conn (some a), none) → 0 ≤ (w.heap a).Fd →
      (c.Get sys (c.Put w a)).value? = some (some a, none) ∧
      (c.Get sys (c.Put w a)).world.trace =
        w.trace ++ [Event.poolPutWithId a (w.heap a).Id, Event.poolGet] ∧
      ((c.Get sys (c.Put w a)).world.heap a).Fd = (w.heap a).Fd) := by
  have hput : (c.Put w a).trace = w.trace ++ [Event.poolPutWithId a (w.heap a).Id] ∧
      (c.Put w a).heap = w.heap := by
    simp [Connections.Put, poolPutWithId]
  refine ⟨hput, ?_, ?_⟩
  · intro hp hfd
    rw [Get_warm c sys w2 b hp hfd]
    simp [Outcome.value?, Outcome.world]
  · intro hp hfd
    have hfd2 : 0 ≤ ((c.Put w a).heap a).Fd := by rw [hput.2]; exact hfd
    rw [Get_warm c sys (c.Put w a) a hp hfd2]
    simp [Outcome.value?, Outcome.world, hput.1, hput.2]

/-- Witness for C7: handle 2 holds descriptor 9, is released, and is handed out
again. -/
theorem Put_keeps_socket_warm_witness :
    ((New "10.0.0.1" 80 4).Get (constSys (7, none) none none (Iface.conn (some 2), none))
        ((New "10.0.0.1" 80 4).Put (freshWorld fun _ => 9) 2)).value? = some (some 2, none) ∧
    ((New "10.0.0.1" 80 4).Get (constSys (7, none) none none (Iface.conn (some 2), none))
        ((New "10.0.0.1" 80 4).Put (freshWorld fun _ => 9) 2)).world.trace =
      [Event.poolPutWithId 2 2, Event.poolGet] ∧
    (((New "10.0.0.1" 80 4).Get (constSys (7, none) none none (Iface.conn (some 2), none))
        ((New "10.0.0.1" 80 4).Put (freshWorld fun _ => 9) 2)).world.heap 2).Fd = 9 ∧
    ((New "10.0.0.1" 80 4).Get (constSys (7, none) none none (Iface.conn (some 5), none))
        (freshWorld fun _ => 9)).world.trace = [Event.poolGet] :=
  ⟨((Put_keeps_socket_warm (New "10.0.0.1" 80 4)
      (constSys (7, none) none none (Iface.conn (some 2), none))
      (freshWorld fun _ => 9) (freshWorld fun _ => 9) 2 2).2.2 rfl (by decide)).1,
   ((Put_keeps_socket_warm (New "10.0.0.1" 80 4)
      (constSys (7, none) none none (Iface.conn (some 2), none))
      (freshWorld fun _ => 9) (freshWorld fun _ => 9) 2 2).2.2 rfl (by decide)).2.1,
   ((Put_keeps_socket_warm (New "10.0.0.1" 80 4)
      (constSys (7, none) none none (Iface.conn (some 2), none))
      (freshWorld fun _ => 9) (freshWorld fun _ => 9) 2 2).2.2 rfl (by decide)).2.2,
   ((Put_keeps_socket_warm (New "10.0.0.1" 80 4)
      (constSys (7, none) none none (Iface.conn (some 5), none))
      (freshWorld fun _ => 9) (freshWorld fun _ => 9) 2 5).2.1 rfl (by decide)).2.1⟩

/-! ## Reconnect and close -/

/-- C4: when the socket factory fails with `e` during `Reconnect`, `Reconnect`
returns `e` and the handle ends unconnected: its `Fd` is the sentinel `-1`
whenever it was a descriptor or the sentinel on entry.  A handle connected on
entry has its old descriptor closed first, before any factory call.
Consequently, of three `Reconnect` calls in a row where the factory fails,
fails and then succeeds, the first two return their errors and leave `Fd = -1`,
and the third returns nil and installs the descriptor the factory produced. -/
theorem Reconnect_factory_failure (c : Connections) (sys : Sys) (w : World) (a : Addr) :
    (∀ e, (c.newSocketConnection sys (c.dropDescriptor sys w a)).1.2 = some e →
      (c.Reconnect sys w a).1 = some e ∧
      ((c.Reconnect sys w a).2.heap a).Fd < 0 ∧
      ((w.heap a).wellFormed → ((c.Reconnect sys w a).2.heap a).Fd = -1) ∧
      (0 ≤ (w.heap a).Fd →
        ∃ l, (c.Reconnect sys w a).2.trace = w.trace ++ Event.close (w.heap a).Fd :: l ∧
          ∀ ev ∈ l, ev.isFactory = true)) ∧
    (∀ w1 w2 w3 e1 e2,
      w1 = (c.Reconnect sys w a).2 → w2 = (c.Reconnect sys w1 a).2 →
      w3 = (c.Reconnect sys w2 a).2 →
      (w.heap a).wellFormed →
      (c.newSocketConnection sys (c.dropDescriptor sys w a)).1.2 = some e1 →
      (c.newSocketConnection sys (c.dropDescriptor sys w1 a)).1.2 = some e2 →
      (c.newSocketConnection sys (c.dropDescriptor sys w2 a)).1.2 = none →
      (c.Reconnect sys w a).1 = some e1 ∧ (w1.heap a).Fd = -1 ∧
      (c.Reconnect sys w1 a).1 = some e2 ∧ (w2.heap a).Fd = -1 ∧
      (c.Reconnect sys w2 a).1 = none ∧
      (w3.heap a).Fd = (c.newSocketConnection sys (c.dropDescriptor sys w2 a)).1.1) := by
  have single : ∀ (w : World) (e : Errno),
      (c.newSocketConnection sys (c.dropDescriptor sys w a)).1.2 = some e →
      (c.Reconnect sys w a).1 = some e ∧
      ((c.Reconnect sys w a).2.heap a).Fd < 0 ∧
      ((w.heap a).wellFormed → ((c.Reconnect sys w a).2.heap a).Fd = -1) := by
    intro w e hf
    refine ⟨by rw [Reconnect_fail c sys w a e hf], ?_, ?_⟩
    · rw [Reconnect_fail_heap c sys w a e hf]
      exact dropDescriptor_Fd_neg c sys w a
    · intro hwf
      rw [Reconnect_fail_heap c sys w a e hf]
      exact dropDescriptor_Fd_sentinel c sys w a hwf
  refine ⟨?_, ?_⟩
  · intro e hf
    obtain ⟨h1, h2, h3⟩ := single w e hf
    refine ⟨h1, h2, h3, ?_⟩
    intro hfd
    obtain ⟨l, hl, hfac⟩ := nsc_trace c sys (c.dropDescriptor sys w a)
    refine ⟨l, ?_, hfac⟩
    rw [Reconnect_fail c sys w a e hf]
    rw [dropDescriptor_connected c sys w a hfd] at hl ⊢
    simp [hl]
  · intro w1 w2 w3 e1 e2 hw1 hw2 hw3 hwf hf1 hf2 hf3
    obtain ⟨r1, _, s1⟩ := single w e1 hf1
    have fd1 : (w1.heap a).Fd = -1 := by rw [hw1]; exact s1 hwf
    obtain ⟨r2, _, s2⟩ := single w1 e2 hf2
    have fd2 : (w2.heap a).Fd = -1 := by rw [hw2]; exact s2 (Or.inr fd1)
    refine ⟨r1, fd1, r2, fd2, ?_, ?_⟩
    · rw [Reconnect_ok c sys w2 a hf3]
    · rw [hw3, Reconnect_ok c sys w2 a hf3]
      simp

/-- Witness for C4: handle 1 holds descriptor 9; connect is refused twice and
then accepted; the old descriptor 9 is the first thing closed. -/
theorem Reconnect_factory_failure_witness :
    (∃ l, (exampleConfig.Reconnect flakySys (freshWorld fun _ => 9) 1).2.trace =
        (freshWorld fun _ => 9).trace ++
          Event.close ((freshWorld fun _ => 9).heap 1).Fd :: l ∧
        ∀ ev ∈ l, ev.isFactory = true) ∧
    ((exampleConfig.Reconnect flakySys (freshWorld fun _ => 9) 1).1 = some 111 ∧
      (flakyWorld1.heap 1).Fd = -1 ∧
      (exampleConfig.Reconnect flakySys flakyWorld1 1).1 = some 111 ∧
      (flakyWorld2.heap 1).Fd = -1 ∧
      (exampleConfig.Reconnect flakySys flakyWorld2 1).1 = none ∧
      (flakyWorld3.heap 1).Fd =
        (exampleConfig.newSocketConnection flakySys
          (exampleConfig.dropDescriptor flakySys flakyWorld2 1)).1.1) :=
  ⟨((Reconnect_factory_failure exampleConfig flakySys (freshWorld fun _ => 9) 1).1
      111 rfl).2.2.2 (by decide),
   (Reconnect_factory_failure exampleConfig flakySys (freshWorld fun _ => 9) 1).2
      flakyWorld1 flakyWorld2 flakyWorld3 111 111 rfl rfl rfl (by decide) rfl rfl rfl⟩

/-- C5: `Close` is idempotent.  After one `Close`, whatever `unix.Close`
answered, the handle is unconnected, with `Fd = -1` whenever it held a
descriptor or the sentinel before; a second `Close` right after returns the nil
error and leaves the world as it was: no `unix.Close` call, `Fd` still the
sentinel. -/
theorem Close_idempotent (c : Connections) (sys : Sys) (w : World) (a : Addr) :
    ((c.Close sys w a).2.heap a).Fd < 0 ∧
    ((w.heap a).wellFormed → ((c.Close sys w a).2.heap a).Fd = -1) ∧
    (c.Close sys (c.Close sys w a).2 a).1 = none ∧
    (c.Close sys (c.Close sys w a).2 a).2 = (c.Close sys w a).2 ∧
    newEvents (c.Close sys w a).2 (c.Close sys (c.Close sys w a).2 a).2 = [] ∧
    ((w.heap a).wellFormed → ((c.Close sys (c.Close sys w a).2 a).2.heap a).Fd = -1) := by
  have hneg := Close_Fd_neg c sys w a
  have h2 := Close_of_unconnected c sys (c.Close sys w a).2 a hneg
  have hs : (w.heap a).wellFormed → ((c.Close sys w a).2.heap a).Fd = -1 := by
    intro hwf
    by_cases h : 0 ≤ (w.heap a).Fd
    · rw [Close_of_connected c sys w a h]; simp
    · rw [Close_of_unconnected c sys w a (not_le.mp h)]
      rcases hwf with h0 | h1
      · exact absurd h0 h
      · exact h1
  refine ⟨hneg, hs, by rw [h2], by rw [h2], ?_, ?_⟩
  · rw [h2]; simp [newEvents]
  · intro hwf
    rw [h2]
    exact hs hwf

/-- Witness for C5: handle 1 holds descriptor 9 and `unix.Close` fails. -/
theorem Close_idempotent_witness :
    ((exampleConfig.Close (constSys (5, none) none (some 9) (Iface.nil, none))
        (freshWorld fun _ => 9) 1).2.heap 1).Fd = -1 ∧
    ((exampleConfig.Close (constSys (5, none) none (some 9) (Iface.nil, none))
        (exampleConfig.Close (constSys (5, none) none (some 9) (Iface.nil, none))
          (freshWorld fun _ => 9) 1).2 1).2.heap 1).Fd = -1 :=
  ⟨(Close_idempotent exampleConfig (constSys (5, none) none (some 9) (Iface.nil, none))
      (freshWorld fun _ => 9) 1).2.1 (by decide),
   (Close_idempotent exampleConfig (constSys (5, none) none (some 9) (Iface.nil, none))
      (freshWorld fun _ => 9) 1).2.2.2.2.2 (by decide)⟩

/-- C6: on a connected handle (`Fd >= 0`) `Close` makes exactly one call,
`unix.Close` on the handle's descriptor, returns exactly what that call
returned, and sets `Fd` to the sentinel `-1` whether or not the call failed;
a failure `e` is therefore surfaced with the handle already unconnected. -/
theorem Close_connected (c : Connections) (sys : Sys) (w : World) (a : Addr)
    (h : 0 ≤ (w.heap a).Fd) :
    (c.Close sys w a).2.trace = w.trace ++ [Event.close (w.heap a).Fd] ∧
    (c.Close sys w a).1 = sys.close w.trace (w.heap a).Fd ∧
    ((c.Close sys w a).2.heap a).Fd = -1 ∧
    (∀ e, sys.close w.trace (w.heap a).Fd = some e →
      (c.Close sys w a).1 = some e ∧ ((c.Close sys w a).2.heap a).Fd = -1) := by
  rw [Close_of_connected c sys w a h]
  refine ⟨by simp, rfl, by simp, ?_⟩
  intro e he
  exact ⟨he, by simp⟩

/-- Witness for C6: handle 1 holds descriptor 9 and `unix.Close` fails with 9. -/
theorem Close_connected_witness :
    (exampleConfig.Close (constSys (5, none) none (some 9) (Iface.nil, none))
        (freshWorld fun _ => 9) 1).2.trace = [] ++ [Event.close 9] ∧
    (exampleConfig.Close (constSys (5, none) none (some 9) (Iface.nil, none))
        (freshWorld fun _ => 9) 1).1 = some 9 ∧
    ((exampleConfig.Close (constSys (5, none) none (some 9) (Iface.nil, none))
        (freshWorld fun _ => 9) 1).2.heap 1).Fd = -1 :=
  ⟨(Close_connected exampleConfig (constSys (5, none) none (some 9) (Iface.nil, none))
      (freshWorld fun _ => 9) 1 (by decide)).1,
   ((Close_connected exampleConfig (constSys (5, none) none (some 9) (Iface.nil, none))
      (freshWorld fun _ => 9) 1 (by decide)).2.2.2 9 rfl).1,
   ((Close_connected exampleConfig (constSys (5, none) none (some 9) (Iface.nil, none))
      (freshWorld fun _ => 9) 1 (by decide)).2.2.2 9 rfl).2⟩

/-! ## Identity and payload -/

/-- C8: for a handle created by `allocWithId id`, after any finite sequence of
`Get`, `Put`, `Reconnect` and `Close`, under any outcomes of the underlying
calls, the handle's `Id` is still `id` and its `Data` still the nil payload it
was created with: the record differs from `allocWithId id` in `Fd` at most.
The same holds for the `Id` and `Data` of every other handle. -/
theorem run_preserves_identity (c : Connections) (sys : Sys) (w : World) (ops : List Op)
    (a : Addr) (id : Nat) (h : w.heap a = allocWithId id) :
    ((run c sys w ops).heap a).Id = id ∧
    ((run c sys w ops).heap a).Data = Iface.nil ∧
    (run c sys w ops).heap a = { allocWithId id with Fd := ((run c sys w ops).heap a).Fd } ∧
    sameIdData w (run c sys w ops) := by
  have hs := sameIdData_run c sys ops w
  obtain ⟨hi, hd⟩ := hs a
  rw [h] at hi hd
  refine ⟨hi, hd, ?_, hs⟩
  cases hr : (run c sys w ops).heap a with
  | mk i f d =>
    rw [hr] at hi hd
    simp only at hi hd
    subst hi hd
    rfl

/-- Witness for C8: handle 1 goes through acquire, two reconnects, close,
release and a second acquire. -/
theorem run_preserves_identity_witness :
    ((run exampleConfig flakySys (freshWorld fun _ => -1)
        [Op.get, Op.reconnect 1, Op.reconnect 1, Op.close 1, Op.put 1, Op.get]).heap 1).Id = 1 ∧
    ((run exampleConfig flakySys (freshWorld fun _ => -1)
        [Op.get, Op.reconnect 1, Op.reconnect 1, Op.close 1, Op.put 1, Op.get]).heap 1).Data
      = Iface.nil :=
  ⟨(run_preserves_identity exampleConfig flakySys (freshWorld fun _ => -1)
      [Op.get, Op.reconnect 1, Op.reconnect 1, Op.close 1, Op.put 1, Op.get] 1 1 rfl).1,
   (run_preserves_identity exampleConfig flakySys (freshWorld fun _ => -1)
      [Op.get, Op.reconnect 1, Op.reconnect 1, Op.close 1, Op.put 1, Op.get] 1 1 rfl).2.1⟩

/-! ## The option profile -/

/-- C10: after `SetKeepAlive n`, a successful `connect` writes `n` to
`SO_KEEPALIVE`, and issues the `TCP_KEEPCNT` and `TCP_KEEPINTVL` calls exactly
when `n = 1` (the test of line 148).  For every other `n`, also a non-zero one
that enables keepalive, no call naming `TCP_KEEPCNT` or `TCP_KEEPINTVL` is made
at all, against the claim. -/
theorem connect_probe_options (c : Connections) (sys : Sys) (w : World) (fd n : Int)
    (hc : sys.connect w.trace fd = none) :
    ((c.SetKeepAlive n).connect sys w fd).1 = none ∧
    Event.setsockoptInt fd UnixConst.SOL_SOCKET UnixConst.SO_KEEPALIVE n ∈
      newEvents w ((c.SetKeepAlive n).connect sys w fd).2 ∧
    (Event.setsockoptInt fd UnixConst.SOL_SOCKET UnixConst.TCP_KEEPCNT c.keepCnt ∈
      newEvents w ((c.SetKeepAlive n).connect sys w fd).2 ↔ n = 1) ∧
    (Event.setsockoptInt fd UnixConst.SOL_SOCKET UnixConst.TCP_KEEPINTVL c.keepIntvl ∈
      newEvents w ((c.SetKeepAlive n).connect sys w fd).2 ↔ n = 1) ∧
    (n ≠ 1 → ∀ x level v,
      Event.setsockoptInt x level UnixConst.TCP_KEEPCNT v ∉
        newEvents w ((c.SetKeepAlive n).connect sys w fd).2 ∧
      Event.setsockoptInt x level UnixConst.TCP_KEEPINTVL v ∉
        newEvents w ((c.SetKeepAlive n).connect sys w fd).2) := by
  have hk := connect_ok (c.SetKeepAlive n) sys w fd hc
  have hev := newEvents_append w ((c.SetKeepAlive n).connect sys w fd).2
    (Event.connect fd c.port c.host :: optionEvents (c.SetKeepAlive n) fd)
    (by rw [hk]; rfl)
  rw [hev, hk]
  by_cases h1 : n = 1 <;>
    simp [optionEvents, Connections.SetKeepAlive, h1]

/-- Witness for C10: after `SetKeepAlive 2` the value written to `SO_KEEPALIVE`
is 2, keepalive is on, and neither probe option is set. -/
theorem connect_probe_options_witness :
    Event.setsockoptInt 5 UnixConst.SOL_SOCKET UnixConst.SO_KEEPALIVE 2 ∈
      newEvents (freshWorld fun _ => -1)
        ((exampleConfig.SetKeepAlive 2).connect (constSys (5, none) none none (Iface.nil, none))
          (freshWorld fun _ => -1) 5).2 ∧
    (∀ x level v,
      Event.setsockoptInt x level UnixConst.TCP_KEEPCNT v ∉
        newEvents (freshWorld fun _ => -1)
          ((exampleConfig.SetKeepAlive 2).connect
            (constSys (5, none) none none (Iface.nil, none)) (freshWorld fun _ => -1) 5).2 ∧
      Event.setsockoptInt x level UnixConst.TCP_KEEPINTVL v ∉
        newEvents (freshWorld fun _ => -1)
          ((exampleConfig.SetKeepAlive 2).connect
            (constSys (5, none) none none (Iface.nil, none)) (freshWorld fun _ => -1) 5).2) :=
  ⟨(connect_probe_options exampleConfig (constSys (5, none) none none (Iface.nil, none))
      (freshWorld fun _ => -1) 5 2 rfl).2.1,
   (connect_probe_options exampleConfig (constSys (5, none) none none (Iface.nil, none))
      (freshWorld fun _ => -1) 5 2 rfl).2.2.2.2 (by decide)⟩

end Epollclient
